import Mathlib

/-!
# Verification of the Noita-AI-Mod perception / inference / training core

Shallow embedding of the AI core of the repository:

* `src/ai/pathfinding/RayCasting.{h,cpp}` — 360° ray casting over a character grid
* `src/ai/controller/AIController.{h,cpp}` — feature extraction, forward network,
  action discretization, random fallback, binary model loading
* `src/ai/trainer/SLTrainer/SLTrainer.{h,cpp}` — behavior-cloning trainer,
  model save/load, evaluation

`float` values are modelled as `ℚ` (each `float` literal of the source denotes the
written rational constant).  Calls into the C math library (`std::sqrt`,
`std::atan2`, `std::cos`, `std::sin`) are modelled as function parameters of the
embedding, and the `std::mt19937`-based randomness is modelled by explicit
seed / permutation parameters.  A `float` division is total in C++ (dividing by
zero yields NaN/Inf); where a claim is about division by zero, the division is
modelled as `Option ℚ` with `none` for the NaN result.
-/

namespace NoitaAI

/-- `static_cast<int>` of a `float`, as used for world→grid coordinate conversion:
truncation toward zero (`Int.div` is T-division, matching the C++ cast). -/
def truncToInt (q : ℚ) : ℤ := q.num.tdiv (q.den : ℤ)

/-! ## RayCasting (src/ai/pathfinding/RayCasting.h / RayCasting.cpp) -/

/-- `RayHitInfo` from RayCasting.h. -/
structure RayHitInfo where
  hitPoint : ℚ × ℚ
  distance : ℚ
  hit : Bool
  direction : ℚ × ℚ
  deriving Repr, DecidableEq

/-- `RayCasting::MAX_DISTANCE = 150.0f` (RayCasting.h line 75). -/
def MAX_DISTANCE : ℚ := 150

/-- `RayCasting::STEP_SIZE = 1.0f` (RayCasting.h line 76). -/
def STEP_SIZE : ℚ := 1

/-- `TILE = 15` (core/Constants.h). -/
def TILE : ℚ := 15

/-- The obstacle character set of `RayCasting::isObstacle` (RayCasting.cpp line 155). -/
def obstacleChar (c : Char) : Bool :=
  c = '1' || c = 'M' || c = 'W' || c = '3' || c = '4'

/-- `RayCasting::isObstacle` (RayCasting.cpp lines 144-156): out-of-bounds cells are
treated as obstacles (fail-safe), otherwise membership in the obstacle set. -/
def isObstacle (levelData : List (List Char)) (x y : ℤ) : Bool :=
  if y < 0 ∨ (levelData.length : ℤ) ≤ y then
    true
  else
    let row := levelData.getD y.toNat []
    if x < 0 ∨ (row.length : ℤ) ≤ x then
      true
    else
      obstacleChar (row.getD x.toNat ' ')

/-- Position along a ray: `origin + direction * distance`. -/
def rayStep (origin direction : ℚ × ℚ) (d : ℚ) : ℚ × ℚ :=
  (origin.1 + direction.1 * d, origin.2 + direction.2 * d)

/-- Outcome of one marching step of `castSingleRay`. -/
inductive StepOutcome where
  | outOfLevel
  | obstacle
  | free
  deriving Repr, DecidableEq

/-- One iteration of the marching loop of `RayCasting::castSingleRay`
(RayCasting.cpp lines 99-121): convert the current position to grid coordinates,
stop if outside the level bounds, report an obstacle hit, or continue. -/
def stepOutcome (levelData : List (List Char)) (pos : ℚ × ℚ) : StepOutcome :=
  let gridX := truncToInt (pos.1 / TILE)
  let gridY := truncToInt (pos.2 / TILE)
  if gridX < 0 ∨ gridY < 0 ∨ (levelData.length : ℤ) ≤ gridY ∨
      ((levelData.getD gridY.toNat []).length : ℤ) ≤ gridX then
    .outOfLevel
  else if isObstacle levelData gridX gridY then
    .obstacle
  else
    .free

/-- The no-hit result of `castSingleRay`: endpoint at `MAX_DISTANCE`,
`hit = false` (RayCasting.cpp lines 91-94 and 124-127). -/
def noHitResult (origin direction : ℚ × ℚ) : RayHitInfo :=
  { hitPoint := rayStep origin direction MAX_DISTANCE
    distance := MAX_DISTANCE
    hit := false
    direction := direction }

/-- The marching loop of `castSingleRay` over the remaining step distances. -/
def castLoop (origin direction : ℚ × ℚ) (levelData : List (List Char)) :
    List ℚ → RayHitInfo
  | [] => noHitResult origin direction
  | d :: rest =>
    let pos := rayStep origin direction d
    match stepOutcome levelData pos with
    | .outOfLevel => noHitResult origin direction
    | .obstacle =>
        { hitPoint := pos, distance := d, hit := true, direction := direction }
    | .free => castLoop origin direction levelData rest

/-- The distances visited by `for (float distance = 0; distance < MAX_DISTANCE;
distance += STEP_SIZE)` with `STEP_SIZE = 1` and `MAX_DISTANCE = 150`:
exactly `0, 1, …, 149` (all exactly representable floats). -/
def stepDistances : List ℚ :=
  (List.range 150).map (fun k : ℕ => (k : ℚ) * STEP_SIZE)

/-- `RayCasting::castSingleRay` (RayCasting.cpp lines 88-130). -/
def castSingleRay (origin direction : ℚ × ℚ) (levelData : List (List Char)) :
    RayHitInfo :=
  castLoop origin direction levelData stepDistances

/-- The `float PI` literal of RayCasting.cpp line 40. -/
def PI_RC : ℚ := 3.14159265358979323846

/-- The four quadrant angle ranges of `castRays` (RayCasting.cpp lines 41-46). -/
def quadrantAngles : List (ℚ × ℚ) :=
  [(0, PI_RC / 2), (PI_RC / 2, PI_RC), (PI_RC, 3 * PI_RC / 2), (3 * PI_RC / 2, 2 * PI_RC)]

/-- `RayCasting::castRays` (RayCasting.cpp lines 31-71), parametric in the C math
library functions `std::cos` / `std::sin`.  An empty level returns the empty
result vector (line 37); otherwise each of the four quadrants gets
`raysPerQuadrant` rays at linearly interpolated angles. -/
def castRays (cosF sinF : ℚ → ℚ) (origin : ℚ × ℚ) (levelData : List (List Char))
    (raysPerQuadrant : ℕ) : List RayHitInfo :=
  if levelData = [] then
    []
  else
    (quadrantAngles.map (fun qa =>
      (List.range raysPerQuadrant).map (fun i : ℕ =>
        let angle := qa.1 + (qa.2 - qa.1) * (i : ℚ) / (raysPerQuadrant : ℚ)
        let direction := (cosF angle, sinF angle)
        castSingleRay origin direction levelData))).flatten

/-! ### Ray casting lemmas -/

theorem castLoop_distance_mem (origin direction : ℚ × ℚ)
    (levelData : List (List Char)) :
    ∀ ds : List ℚ, (castLoop origin direction levelData ds).distance = MAX_DISTANCE ∨
      (castLoop origin direction levelData ds).distance ∈ ds := by
  intro ds
  induction ds with
  | nil => left; rfl
  | cons d rest ih =>
    simp only [castLoop]
    cases hso : stepOutcome levelData (rayStep origin direction d) with
    | outOfLevel => left; rfl
    | obstacle => right; simp
    | free =>
      rcases ih with h | h
      · left; exact h
      · right; simp [h]

theorem stepDistances_bounds : ∀ d ∈ stepDistances, 0 ≤ d ∧ d ≤ MAX_DISTANCE := by
  intro d hd
  rw [stepDistances, List.mem_map] at hd
  obtain ⟨k, hk, rfl⟩ := hd
  rw [List.mem_range] at hk
  refine ⟨by rw [STEP_SIZE, mul_one]; positivity, ?_⟩
  rw [STEP_SIZE, MAX_DISTANCE, mul_one]
  exact_mod_cast Nat.le_of_lt_succ (Nat.lt_succ_of_lt hk)

theorem castSingleRay_distance_bounds (origin direction : ℚ × ℚ)
    (levelData : List (List Char)) :
    0 ≤ (castSingleRay origin direction levelData).distance ∧
      (castSingleRay origin direction levelData).distance ≤ MAX_DISTANCE := by
  rcases castLoop_distance_mem origin direction levelData stepDistances with h | h
  · rw [castSingleRay, h]; exact ⟨by norm_num [MAX_DISTANCE], le_refl _⟩
  · exact stepDistances_bounds _ h

theorem castRays_length (cosF sinF : ℚ → ℚ) (origin : ℚ × ℚ)
    (levelData : List (List Char)) (raysPerQuadrant : ℕ)
    (hne : levelData ≠ []) :
    (castRays cosF sinF origin levelData raysPerQuadrant).length =
      4 * raysPerQuadrant := by
  rw [castRays, if_neg hne, List.length_flatten]
  simp only [quadrantAngles, List.map_cons, List.map_nil, List.length_map,
    List.length_range, List.sum_cons, List.sum_nil]
  ring

theorem castRays_mem_bounds (cosF sinF : ℚ → ℚ) (origin : ℚ × ℚ)
    (levelData : List (List Char)) (raysPerQuadrant : ℕ) :
    ∀ r ∈ castRays cosF sinF origin levelData raysPerQuadrant,
      0 ≤ r.distance ∧ r.distance ≤ MAX_DISTANCE := by
  intro r hr
  rw [castRays] at hr
  split at hr
  · simp at hr
  · simp only [List.mem_flatten, List.mem_map] at hr
    obtain ⟨l, ⟨qa, _, hql⟩, hrl⟩ := hr
    rw [← hql] at hrl
    simp only [List.mem_map] at hrl
    obtain ⟨i, _, hri⟩ := hrl
    rw [← hri]
    exact castSingleRay_distance_bounds _ _ _

/-! ### Claim C4 -/

/-- **C4, counterexample.**  The claim quantifies over every character grid
"including the empty grid", but `castRays` returns the empty vector for an empty
level (RayCasting.cpp line 37): with `raysPerQuadrant = 4` the result has 0
entries, not `4 * 4 = 16`. -/
theorem castRays_empty_grid_cex :
    (castRays (fun _ => 1) (fun _ => 0) (0, 0) [] 4).length = 0 ∧ (0 : ℕ) ≠ 4 * 4 :=
  ⟨rfl, by decide⟩

/-- **C4, amended.**  For every origin, every *non-empty* character grid, and every
`raysPerQuadrant`, `castRays` returns exactly `4 * raysPerQuadrant` `RayHitInfo`
entries, and each entry's distance lies in `[0, MAX_DISTANCE]` with
`MAX_DISTANCE = 150`.  (For the empty grid the result is empty instead.) -/
theorem castRays_count_and_distance_bounds (cosF sinF : ℚ → ℚ) (origin : ℚ × ℚ)
    (levelData : List (List Char)) (raysPerQuadrant : ℕ)
    (hne : levelData ≠ []) :
    (castRays cosF sinF origin levelData raysPerQuadrant).length =
        4 * raysPerQuadrant ∧
      ∀ r ∈ castRays cosF sinF origin levelData raysPerQuadrant,
        0 ≤ r.distance ∧ r.distance ≤ 150 := by
  refine ⟨castRays_length cosF sinF origin levelData raysPerQuadrant hne, ?_⟩
  intro r hr
  simpa [MAX_DISTANCE] using
    castRays_mem_bounds cosF sinF origin levelData raysPerQuadrant r hr

/-- Witness for the amended C4 at a concrete one-cell obstacle grid. -/
theorem castRays_count_and_distance_bounds_witness :
    (castRays (fun _ => 0) (fun _ => 0) (0, 0) [['1']] 4).length = 4 * 4 ∧
      ∀ r ∈ castRays (fun _ => 0) (fun _ => 0) (0, 0) [['1']] 4,
        0 ≤ r.distance ∧ r.distance ≤ 150 :=
  castRays_count_and_distance_bounds (fun _ => 0) (fun _ => 0) (0, 0) [['1']] 4
    (by decide)

/-! ## FeatureExtractor (AIController::extractFeatures, AIController.cpp lines 111-193) -/

/-- The per-index normalization table of `AIController::extractFeatures`
(AIController.cpp lines 163-190), applied to every element of the raw feature
vector: position and target coordinates divided by `maxDistance = 1350`,
velocity by `maxVelocity = 240.832`, energy by `maxEnergy = 150`, the grounded
flag unchanged, target distance mapped to `min(x / 1350 * 1.4143, 1)`, target
angle divided by `maxAngle = 3.142`, indices 10-69 (ray distances) mapped to
`min(x / 150, 1)`, and indices ≥ 70 unchanged. -/
def normalizeFeature (i : ℕ) (x : ℚ) : ℚ :=
  if i < 2 then x / 1350
  else if i < 4 then x / 240.832
  else if i = 4 then x / 150
  else if i = 5 then x
  else if i = 6 then min (x / 1350 * 1.4143) 1
  else if i = 7 then x / 3.142
  else if i < 10 then x / 1350
  else if i < 70 then min (x / 150) 1
  else x

/-- The normalization loop `for (size_t i = 0; i < features.size(); ++i)`
(AIController.cpp lines 170-190), applying `normalizeFeature` at each index. -/
def normalizeFrom : ℕ → List ℚ → List ℚ
  | _, [] => []
  | i, x :: xs => normalizeFeature i x :: normalizeFrom (i + 1) xs

/-- `AIController::extractFeatures` (AIController.cpp lines 111-193), parametric
in the C math library functions `std::sqrt` and `std::atan2` (and `std::cos` /
`std::sin` for the rays).  The ray cast at line 130 passes no `raysPerQuadrant`
argument, so the default `raysPerQuadrant = 4` of RayCasting.h line 42 applies.
The raw vector is position (2), velocity (2), energy (1), grounded flag (1),
target distance/angle/coordinates (4), then the ray distances and ray hit
flags; it is then normalized index-wise. -/
def extractFeatures (sqrtF : ℚ → ℚ) (atan2F : ℚ → ℚ → ℚ) (cosF sinF : ℚ → ℚ)
    (position velocity : ℚ × ℚ) (energy : ℚ) (isGrounded : Bool)
    (target : ℚ × ℚ) (levelData : List (List Char)) : List ℚ :=
  let diff := (target.1 - position.1, target.2 - position.2)
  let distanceToTarget := sqrtF (diff.1 * diff.1 + diff.2 * diff.2)
  let angleToTarget := atan2F diff.2 diff.1
  let playerCenter := (position.1 + 7.5, position.2 + 7.5)
  let rayResults := castRays cosF sinF playerCenter levelData 4
  let raw :=
    [position.1, position.2, velocity.1, velocity.2, energy,
      if isGrounded then 1 else 0, distanceToTarget, angleToTarget,
      target.1, target.2]
    ++ rayResults.map (fun r => r.distance)
    ++ rayResults.map (fun r => if r.hit then (1 : ℚ) else 0)
  normalizeFrom 0 raw

theorem normalizeFrom_length (l : List ℚ) : ∀ k, (normalizeFrom k l).length = l.length := by
  induction l with
  | nil => intro k; rfl
  | cons x xs ih => intro k; simp [normalizeFrom, ih]

theorem normalizeFrom_getD (l : List ℚ) :
    ∀ k i, i < l.length →
      (normalizeFrom k l).getD i 0 = normalizeFeature (k + i) (l.getD i 0) := by
  induction l with
  | nil => intro k i h; simp at h
  | cons x xs ih =>
    intro k i h
    cases i with
    | zero => simp [normalizeFrom]
    | succ j =>
      simp only [normalizeFrom, List.getD_cons_succ]
      rw [ih (k + 1) j (by simpa using Nat.lt_of_succ_lt_succ h)]
      ring_nf

theorem normalizeFeature_ray_range (i : ℕ) (x : ℚ) (h10 : 10 ≤ i) (h70 : i < 70) :
    normalizeFeature i x = min (x / 150) 1 := by
  rw [normalizeFeature, if_neg (by omega), if_neg (by omega), if_neg (by omega),
    if_neg (by omega), if_neg (by omega), if_neg (by omega), if_neg (by omega),
    if_pos h70]

theorem normalizeFeature_at_5 (x : ℚ) : normalizeFeature 5 x = x := by
  simp [normalizeFeature]

theorem normalizeFeature_at_6 (x : ℚ) :
    normalizeFeature 6 x = min (x / 1350 * 1.4143) 1 := by
  simp [normalizeFeature]

theorem normalizeFrom_ray_layout (l10 : List ℚ) (rays : List RayHitInfo)
    (hl10 : l10.length = 10) (h16 : rays.length = 16)
    (hnn : ∀ r ∈ rays, 0 ≤ r.distance) :
    (normalizeFrom 0 (l10 ++ rays.map (fun r => r.distance)
        ++ rays.map (fun r => if r.hit then (1 : ℚ) else 0))).length = 42 ∧
      ∀ i, 10 ≤ i → i < 42 →
        0 ≤ (normalizeFrom 0 (l10 ++ rays.map (fun r => r.distance)
            ++ rays.map (fun r => if r.hit then (1 : ℚ) else 0))).getD i 0 ∧
          (normalizeFrom 0 (l10 ++ rays.map (fun r => r.distance)
            ++ rays.map (fun r => if r.hit then (1 : ℚ) else 0))).getD i 0 ≤ 1 := by
  have hrawlen : (l10 ++ rays.map (fun r => r.distance)
      ++ rays.map (fun r => if r.hit then (1 : ℚ) else 0)).length = 42 := by
    simp [hl10, h16]
  refine ⟨by rw [normalizeFrom_length, hrawlen], ?_⟩
  intro i h10 h42
  rw [normalizeFrom_getD _ 0 i (by rw [hrawlen]; exact h42), Nat.zero_add]
  have hx : 0 ≤ (l10 ++ rays.map (fun r => r.distance)
      ++ rays.map (fun r => if r.hit then (1 : ℚ) else 0)).getD i 0 := by
    rw [List.append_assoc,
      List.getD_append_right _ _ _ _ (by rw [hl10]; exact h10)]
    have hj : i - l10.length < (rays.map (fun r => r.distance)
        ++ rays.map (fun r => if r.hit then (1 : ℚ) else 0)).length := by
      simp only [List.length_append, List.length_map, h16, hl10]
      omega
    rw [List.getD_eq_getElem _ _ hj]
    have hmem := List.getElem_mem hj
    rcases List.mem_append.mp hmem with hm | hm
    · obtain ⟨r, hr, hrx⟩ := List.mem_map.mp hm
      rw [← hrx]; exact hnn r hr
    · obtain ⟨r, hr, hrx⟩ := List.mem_map.mp hm
      rw [← hrx]; split <;> norm_num
  rw [normalizeFeature_ray_range i _ h10 (by omega)]
  exact ⟨le_min (by positivity) (by norm_num), min_le_right _ _⟩

/-! ### Claim C1 -/

/-- **C1, counterexample.**  The feature extraction used for inference does *not*
return 130 floats: `extractFeatures` casts the rays with the default
`raysPerQuadrant = 4` (AIController.cpp line 130 passes no density argument, so
RayCasting.h line 42's default applies), giving 16 rays and a feature vector of
length `10 + 16 + 16 = 42`, not `10 + 60 + 60 = 130`. -/
theorem extractFeatures_length_cex :
    (extractFeatures (fun _ => 0) (fun _ _ => 0) (fun _ => 0) (fun _ => 0)
        (0, 0) (0, 0) 0 false (0, 0) [['1']]).length = 42 ∧ (42 : ℕ) ≠ 130 := by
  constructor
  · rfl
  · decide

/-- **C1, amended.**  For every player/world state with a non-empty level grid,
`extractFeatures` returns a vector of exactly 42 floats (2 position, 2 velocity,
1 energy, 1 grounded, 4 target features, then 16 ray distances and 16 ray hit
flags from the default 4-rays-per-quadrant cast); every element of the ray block
(indices 10-41) lies in `[0, 1]`, and the grounded flag (index 5) is 0 or 1. -/
theorem extractFeatures_length_and_ray_bounds (sqrtF : ℚ → ℚ)
    (atan2F : ℚ → ℚ → ℚ) (cosF sinF : ℚ → ℚ) (position velocity : ℚ × ℚ)
    (energy : ℚ) (isGrounded : Bool) (target : ℚ × ℚ)
    (levelData : List (List Char)) (hne : levelData ≠ []) :
    (extractFeatures sqrtF atan2F cosF sinF position velocity energy isGrounded
        target levelData).length = 42 ∧
      (∀ i, 10 ≤ i → i < 42 →
        0 ≤ (extractFeatures sqrtF atan2F cosF sinF position velocity energy
            isGrounded target levelData).getD i 0 ∧
          (extractFeatures sqrtF atan2F cosF sinF position velocity energy
            isGrounded target levelData).getD i 0 ≤ 1) ∧
      ((extractFeatures sqrtF atan2F cosF sinF position velocity energy
          isGrounded target levelData).getD 5 0 = 0 ∨
        (extractFeatures sqrtF atan2F cosF sinF position velocity energy
          isGrounded target levelData).getD 5 0 = 1) := by
  have hE : extractFeatures sqrtF atan2F cosF sinF position velocity energy
      isGrounded target levelData
      = normalizeFrom 0 ([position.1, position.2, velocity.1, velocity.2, energy,
          if isGrounded then 1 else 0,
          sqrtF ((target.1 - position.1) * (target.1 - position.1)
            + (target.2 - position.2) * (target.2 - position.2)),
          atan2F (target.2 - position.2) (target.1 - position.1),
          target.1, target.2]
        ++ (castRays cosF sinF (position.1 + 7.5, position.2 + 7.5) levelData 4).map
            (fun r => r.distance)
        ++ (castRays cosF sinF (position.1 + 7.5, position.2 + 7.5) levelData 4).map
            (fun r => if r.hit then (1 : ℚ) else 0)) := rfl
  have h16 : (castRays cosF sinF (position.1 + 7.5, position.2 + 7.5)
      levelData 4).length = 16 := by
    rw [castRays_length cosF sinF _ levelData 4 hne]
  have hnn : ∀ r ∈ castRays cosF sinF (position.1 + 7.5, position.2 + 7.5)
      levelData 4, 0 ≤ r.distance :=
    fun r hr => (castRays_mem_bounds cosF sinF _ levelData 4 r hr).1
  have hmain := normalizeFrom_ray_layout
    [position.1, position.2, velocity.1, velocity.2, energy,
      if isGrounded then 1 else 0,
      sqrtF ((target.1 - position.1) * (target.1 - position.1)
        + (target.2 - position.2) * (target.2 - position.2)),
      atan2F (target.2 - position.2) (target.1 - position.1),
      target.1, target.2]
    (castRays cosF sinF (position.1 + 7.5, position.2 + 7.5) levelData 4)
    (by rfl) h16 hnn
  rw [hE]
  refine ⟨hmain.1, hmain.2, ?_⟩
  have h5 : ([position.1, position.2, velocity.1, velocity.2, energy,
      if isGrounded then (1 : ℚ) else 0,
      sqrtF ((target.1 - position.1) * (target.1 - position.1)
        + (target.2 - position.2) * (target.2 - position.2)),
      atan2F (target.2 - position.2) (target.1 - position.1),
      target.1, target.2]
    ++ (castRays cosF sinF (position.1 + 7.5, position.2 + 7.5) levelData 4).map
        (fun r => r.distance)
    ++ (castRays cosF sinF (position.1 + 7.5, position.2 + 7.5) levelData 4).map
        (fun r => if r.hit then (1 : ℚ) else 0)).getD 5 0
      = (if isGrounded then (1 : ℚ) else 0) := by
    rw [List.append_assoc, List.getD_append _ _ _ _ (by simp)]
    rfl
  rw [normalizeFrom_getD _ 0 5 (by simp [h16]), Nat.zero_add, h5,
    normalizeFeature_at_5]
  cases isGrounded
  · left; rfl
  · right; rfl

/-- Witness for the amended C1 at a concrete state over a one-cell grid. -/
theorem extractFeatures_length_and_ray_bounds_witness :
    (extractFeatures (fun _ => 0) (fun _ _ => 0) (fun _ => 1) (fun _ => 0)
        (0, 0) (0, 0) 0 true (10, 10) [['1']]).length = 42 ∧
      (∀ i, 10 ≤ i → i < 42 →
        0 ≤ (extractFeatures (fun _ => 0) (fun _ _ => 0) (fun _ => 1)
            (fun _ => 0) (0, 0) (0, 0) 0 true (10, 10) [['1']]).getD i 0 ∧
          (extractFeatures (fun _ => 0) (fun _ _ => 0) (fun _ => 1)
            (fun _ => 0) (0, 0) (0, 0) 0 true (10, 10) [['1']]).getD i 0 ≤ 1) ∧
      ((extractFeatures (fun _ => 0) (fun _ _ => 0) (fun _ => 1) (fun _ => 0)
          (0, 0) (0, 0) 0 true (10, 10) [['1']]).getD 5 0 = 0 ∨
        (extractFeatures (fun _ => 0) (fun _ _ => 0) (fun _ => 1) (fun _ => 0)
          (0, 0) (0, 0) 0 true (10, 10) [['1']]).getD 5 0 = 1) :=
  extractFeatures_length_and_ray_bounds (fun _ => 0) (fun _ _ => 0) (fun _ => 1)
    (fun _ => 0) (0, 0) (0, 0) 0 true (10, 10) [['1']] (by decide)

/-! ### Claim C5 -/

/-- Modelled from the spec words for claim C5: the *claimed* normalization of
the raw target distance, "the raw Euclidean distance to the target divided by
`maxDistance * sqrt 2` and then clamped to 1.0".  Compared below against the
normalization the source actually performs. -/
noncomputable def specTargetDistanceNorm (d : ℝ) : ℝ :=
  min (d / (1350 * Real.sqrt 2)) 1

/-- **C5, counterexample.**  At raw distance `d = 675` the code computes
`min(675 / 1350 * 1.4143, 1) = 0.70715` (AIController.cpp line 180 *multiplies*
`d / maxDistance` by `1.4143`), while the claimed formula
`min(675 / (1350 * √2), 1) = 1/(2√2) ≈ 0.35355` — an irrational number — so the
two disagree. -/
theorem target_distance_norm_cex :
    ((normalizeFeature 6 675 : ℚ) : ℝ) ≠ specTargetDistanceNorm 675 := by
  have hval : (normalizeFeature 6 675 : ℚ) = 14143 / 20000 := by
    rw [normalizeFeature_at_6]
    norm_num [min_def]
  have hs1 : (1 : ℝ) < Real.sqrt 2 := by
    have h := Real.sqrt_lt_sqrt (by norm_num : (0 : ℝ) ≤ 1) (by norm_num : (1 : ℝ) < 2)
    rwa [Real.sqrt_one] at h
  have hs0 : (0 : ℝ) < Real.sqrt 2 := lt_trans one_pos hs1
  have hspec : specTargetDistanceNorm 675 = 675 / (1350 * Real.sqrt 2) := by
    rw [specTargetDistanceNorm, min_eq_left]
    rw [div_le_one (by positivity)]
    nlinarith
  rw [hval, hspec]
  push_cast
  intro h
  have h2 : Real.sqrt 2 = 10000 / 14143 := by
    field_simp at h
    linarith
  refine irrational_sqrt_two ⟨(10000 / 14143 : ℚ), ?_⟩
  rw [h2]
  push_cast
  norm_num

/-- **C5, amended.**  For every input, the normalized target-distance feature
(index 6 of the extracted vector) equals `min(d / 1350 * 1.4143, 1)` where `d`
is the raw Euclidean distance to the target: the code divides by
`maxDistance = 1350` and then *multiplies* by `1.4143`, clamping at 1.0 — it
does not divide by `maxDistance * √2`. -/
theorem extractFeatures_target_distance_norm (sqrtF : ℚ → ℚ)
    (atan2F : ℚ → ℚ → ℚ) (cosF sinF : ℚ → ℚ) (position velocity : ℚ × ℚ)
    (energy : ℚ) (isGrounded : Bool) (target : ℚ × ℚ)
    (levelData : List (List Char)) :
    (extractFeatures sqrtF atan2F cosF sinF position velocity energy isGrounded
        target levelData).getD 6 0
      = min (sqrtF ((target.1 - position.1) * (target.1 - position.1)
          + (target.2 - position.2) * (target.2 - position.2)) / 1350 * 1.4143) 1 := by
  have hE : extractFeatures sqrtF atan2F cosF sinF position velocity energy
      isGrounded target levelData
      = normalizeFrom 0 ([position.1, position.2, velocity.1, velocity.2, energy,
          if isGrounded then 1 else 0,
          sqrtF ((target.1 - position.1) * (target.1 - position.1)
            + (target.2 - position.2) * (target.2 - position.2)),
          atan2F (target.2 - position.2) (target.1 - position.1),
          target.1, target.2]
        ++ (castRays cosF sinF (position.1 + 7.5, position.2 + 7.5) levelData 4).map
            (fun r => r.distance)
        ++ (castRays cosF sinF (position.1 + 7.5, position.2 + 7.5) levelData 4).map
            (fun r => if r.hit then (1 : ℚ) else 0)) := rfl
  rw [hE]
  rw [normalizeFrom_getD _ 0 6 (by simp), Nat.zero_add]
  have h6 : ([position.1, position.2, velocity.1, velocity.2, energy,
      if isGrounded then (1 : ℚ) else 0,
      sqrtF ((target.1 - position.1) * (target.1 - position.1)
        + (target.2 - position.2) * (target.2 - position.2)),
      atan2F (target.2 - position.2) (target.1 - position.1),
      target.1, target.2]
    ++ (castRays cosF sinF (position.1 + 7.5, position.2 + 7.5) levelData 4).map
        (fun r => r.distance)
    ++ (castRays cosF sinF (position.1 + 7.5, position.2 + 7.5) levelData 4).map
        (fun r => if r.hit then (1 : ℚ) else 0)).getD 6 0
      = sqrtF ((target.1 - position.1) * (target.1 - position.1)
          + (target.2 - position.2) * (target.2 - position.2)) := by
    rw [List.append_assoc, List.getD_append _ _ _ _ (by simp)]
    rfl
  rw [h6, normalizeFeature_at_6]

/-! ## ForwardNetwork, discretization and the inference controller
(AIController.h, AIController.cpp lines 48-77, 230-367, 419-482) -/

/-- ReLU, `std::max(0.0f, x)` (AIController.cpp line 283, SLTrainer.cpp line 602). -/
def relu (x : ℚ) : ℚ := max 0 x

/-- One dense layer `out[i] = bias[i] + Σ_j input[j] * w[j * outDim + i]`, the
loop shape shared by all six layers of `AIController::predictActionWithDetails`
(AIController.cpp lines 277-333) and `BehaviorCloningAgent::forwardNetwork`
(SLTrainer.cpp lines 464-532).  Out-of-range accesses default to 0. -/
def denseLayer (w b input : List ℚ) (inDim outDim : ℕ) : List ℚ :=
  (List.range outDim).map (fun i =>
    (List.range inDim).foldl
      (fun acc j => acc + input.getD j 0 * w.getD (j * outDim + i) 0)
      (b.getD i 0))

/-- The 130→256→128→64→32→16→2 forward pass, ReLU on the five hidden layers,
linear output layer (AIController.cpp lines 276-333, SLTrainer.cpp lines 472-531). -/
def forward6 (weights biases : List (List ℚ)) (input : List ℚ) : List ℚ :=
  let hidden1 := (denseLayer (weights.getD 0 []) (biases.getD 0 []) input 130 256).map relu
  let hidden2 := (denseLayer (weights.getD 1 []) (biases.getD 1 []) hidden1 256 128).map relu
  let hidden3 := (denseLayer (weights.getD 2 []) (biases.getD 2 []) hidden2 128 64).map relu
  let hidden4 := (denseLayer (weights.getD 3 []) (biases.getD 3 []) hidden3 64 32).map relu
  let hidden5 := (denseLayer (weights.getD 4 []) (biases.getD 4 []) hidden4 32 16).map relu
  denseLayer (weights.getD 5 []) (biases.getD 5 []) hidden5 16 2

/-- `AIController::Action` (AIController.h lines 48-51). -/
structure Action where
  moveX : ℤ
  useEnergy : ℤ
  deriving Repr, DecidableEq

/-- The inference-path discretization of the raw network output
(AIController.cpp lines 341-351): `moveX = 1` if `raw0 > 0.33`, `-1` if
`raw0 < -0.33`, else `0`; `useEnergy = 1` iff `raw1 > 0.5`. -/
def discretizeAction (raw0 raw1 : ℚ) : Action :=
  { moveX := if raw0 > 0.33 then 1 else if raw0 < -0.33 then -1 else 0
    useEnergy := if raw1 > 0.5 then 1 else 0 }

/-- The controller fields of `AIController` relevant to decision making
(AIController.h lines 98-113). -/
structure ControllerState where
  aiEnabled : Bool
  modelLoaded : Bool
  modelWeights : List (List ℚ)
  modelBias : List (List ℚ)
  deriving Repr, DecidableEq

/-- Model of `std::uniform_int_distribution<int>(a, b)` applied to one draw of
the controller's `std::mt19937`: the standard library contract returns a value
in `[a, b]`, each value produced by exactly one residue of the underlying
engine output modulo `b - a + 1`. -/
def uniformIntDraw (a b : ℤ) (seed : ℕ) : ℤ := a + (seed : ℤ) % (b - a + 1)

/-- `AIController::getRandomAction` (AIController.cpp lines 362-367):
`moveDist(-1, 1)` and `energyDist(0, 1)` draws, with the two consumed engine
outputs passed as seeds. -/
def getRandomAction (s1 s2 : ℕ) : Action :=
  { moveX := uniformIntDraw (-1) 1 s1
    useEnergy := uniformIntDraw 0 1 s2 }

/-- `AIController::predictActionWithDetails` (AIController.cpp lines 244-360):
random fallback when the model containers are empty, the input feature length
is not 130, or fewer than 6 layers are present; otherwise the forward pass
followed by discretization. -/
def predictActionWithDetails (st : ControllerState) (features : List ℚ)
    (s1 s2 : ℕ) : Action × (ℚ × ℚ) :=
  if st.modelWeights = [] ∨ st.modelBias = [] then
    (getRandomAction s1 s2, (0, 0))
  else if features.length ≠ 130 then
    (getRandomAction s1 s2, (0, 0))
  else if st.modelWeights.length < 6 ∨ st.modelBias.length < 6 then
    (getRandomAction s1 s2, (0, 0))
  else
    let output := forward6 st.modelWeights st.modelBias features
    (discretizeAction (output.getD 0 0) (output.getD 1 0),
      (output.getD 0 0, output.getD 1 0))

/-- `AIController::predictAction` (AIController.cpp lines 230-242). -/
def predictAction (st : ControllerState) (features : List ℚ) (s1 s2 : ℕ) :
    Action :=
  if st.modelWeights = [] ∨ st.modelBias = [] then
    getRandomAction s1 s2
  else
    (predictActionWithDetails st features s1 s2).1

/-- `AIController::decideAction` (AIController.cpp lines 55-77): the null action
when AI is disabled; the model prediction when a model is loaded; otherwise the
random fallback.  Feature extraction is pure in this embedding, so the features
are passed in and the `catch` branch of the source is unreachable. -/
def decideAction (st : ControllerState) (features : List ℚ) (s1 s2 : ℕ) :
    Action :=
  if st.aiEnabled = false then
    { moveX := 0, useEnergy := 0 }
  else if st.modelLoaded then
    predictAction st features s1 s2
  else
    getRandomAction s1 s2

/-! ## Model files (AIController::loadModel, AIController.cpp lines 419-477;
BehaviorCloningAgent::save / load, SLTrainer.cpp lines 561-598)

A model file is a sequence of `[u64 length][length × f32]` blocks, 6 weight
blocks then 6 bias blocks.  Each block is modelled as the list of its floats,
the length field being the list's length; `none` models a file that cannot be
opened. -/

/-- The `layerSizes` table of `AIController::loadModel` (AIController.cpp line 433). -/
def layerSizes : List ℕ := [130 * 256, 256 * 128, 128 * 64, 64 * 32, 32 * 16, 16 * 2]

/-- The `biasSizes` table of `AIController::loadModel` (AIController.cpp line 434). -/
def biasSizes : List ℕ := [256, 128, 64, 32, 16, 2]

/-- The block-reading loops of `AIController::loadModel` (AIController.cpp lines
440-467): read one length-prefixed block per expected size, failing (returning
`none` for the remaining stream) on the first length mismatch or on a read past
the end of the file, and accumulating the blocks read so far. -/
def loadVectors : List ℕ → List (List ℚ) → List (List ℚ) →
    List (List ℚ) × Option (List (List ℚ))
  | [], stream, acc => (acc, some stream)
  | _ :: _, [], acc => (acc, none)
  | sz :: es, b :: bs, acc =>
    if b.length = sz then loadVectors es bs (acc ++ [b]) else (acc, none)

/-- Whether a stream starts with blocks of exactly the given lengths. -/
def lengthsMatch : List ℕ → List (List ℚ) → Bool
  | [], _ => true
  | _ :: _, [] => false
  | sz :: es, b :: bs => b.length = sz && lengthsMatch es bs

/-- Success condition of `AIController::loadModel`: the file opens and declares
exactly the six expected weight lengths followed by the six expected bias
lengths. -/
def loadSucceeds : Option (List (List ℚ)) → Bool
  | none => false
  | some stream => lengthsMatch (layerSizes ++ biasSizes) stream

/-- `AIController::loadModel` (AIController.cpp lines 419-477).  An unopenable
file sets `modelLoaded := false` and leaves the containers untouched; otherwise
the containers are cleared and refilled block by block, any length mismatch
aborting with `modelLoaded := false`; only a fully validated file sets
`modelLoaded := true`. -/
def loadModel (st : ControllerState) (file : Option (List (List ℚ))) :
    ControllerState :=
  match file with
  | none => { st with modelLoaded := false }
  | some stream =>
    let w := loadVectors layerSizes stream []
    match w.2 with
    | none =>
        { st with modelWeights := w.1 ++ List.replicate (6 - w.1.length) [],
                  modelBias := List.replicate 6 [],
                  modelLoaded := false }
    | some rest =>
      let b := loadVectors biasSizes rest []
      match b.2 with
      | none =>
          { st with modelWeights := w.1,
                    modelBias := b.1 ++ List.replicate (6 - b.1.length) [],
                    modelLoaded := false }
      | some _ =>
          { st with modelWeights := w.1, modelBias := b.1, modelLoaded := true }

/-- The trainer-side model parameters (`BehaviorCloningAgent`, SLTrainer.h
lines 290-291). -/
structure AgentState where
  network : List (List ℚ)
  biases : List (List ℚ)
  deriving Repr, DecidableEq

/-- `BehaviorCloningAgent::save` (SLTrainer.cpp lines 561-577): the weight
blocks then the bias blocks, each written length-prefixed. -/
def slSave (ag : AgentState) : List (List ℚ) := ag.network ++ ag.biases

/-- `BehaviorCloningAgent::load` (SLTrainer.cpp lines 580-598): for each of the
current tensors, read a length field and `resize` the tensor to it, then read
that many floats — with *no* validation of the length fields.  A read past the
end of the file leaves the tensor unchanged. -/
def slLoad (ag : AgentState) (stream : List (List ℚ)) : AgentState :=
  { network := (List.range ag.network.length).map
      (fun i => stream.getD i (ag.network.getD i []))
    biases := (List.range ag.biases.length).map
      (fun i => (stream.drop ag.network.length).getD i (ag.biases.getD i [])) }

/-! ### Model loading lemmas -/

theorem loadVectors_snd (es : List ℕ) :
    ∀ (stream acc : List (List ℚ)),
      (loadVectors es stream acc).2 =
        if lengthsMatch es stream = true then some (stream.drop es.length)
        else none := by
  induction es with
  | nil => intro stream acc; simp [loadVectors, lengthsMatch]
  | cons sz es ih =>
    intro stream acc
    cases stream with
    | nil => simp [loadVectors, lengthsMatch]
    | cons b bs =>
      by_cases h : b.length = sz
      · rw [loadVectors, if_pos h, ih]
        simp [lengthsMatch, h]
      · rw [loadVectors, if_neg h]
        simp [lengthsMatch, h]

theorem lengthsMatch_append (a : List ℕ) :
    ∀ b s, lengthsMatch (a ++ b) s =
      (lengthsMatch a s && lengthsMatch b (s.drop a.length)) := by
  induction a with
  | nil => intro b s; simp [lengthsMatch]
  | cons sz es ih =>
    intro b s
    cases s with
    | nil => simp [lengthsMatch]
    | cons x xs =>
      simp [lengthsMatch, ih b xs, Bool.and_assoc]

theorem loadModel_loaded_iff (st : ControllerState)
    (file : Option (List (List ℚ))) :
    (loadModel st file).modelLoaded = true ↔ loadSucceeds file = true := by
  cases file with
  | none => simp [loadModel, loadSucceeds]
  | some stream =>
    by_cases h1 : lengthsMatch layerSizes stream = true
    · by_cases h2 : lengthsMatch biasSizes (stream.drop layerSizes.length) = true
      · simp [loadModel, loadSucceeds, loadVectors_snd, lengthsMatch_append, h1, h2]
      · simp [loadModel, loadSucceeds, loadVectors_snd, lengthsMatch_append, h1, h2]
    · simp [loadModel, loadSucceeds, loadVectors_snd, lengthsMatch_append, h1]

theorem map_getD_range {α : Type} (l : List α) (d : α) :
    (List.range l.length).map (fun i => l.getD i d) = l := by
  apply List.ext_getElem (by simp)
  intro i h1 h2
  simp only [List.getElem_map, List.getElem_range]
  rw [List.getD_eq_getElem _ _ h2]

theorem slLoad_getD (ag : AgentState) (stream : List (List ℚ)) (i : ℕ)
    (hi : i < ag.network.length) (hs : i < stream.length) :
    (slLoad ag stream).network.getD i [] = stream.getD i [] := by
  rw [slLoad]
  have hlen : i < ((List.range ag.network.length).map
      (fun i => stream.getD i (ag.network.getD i []))).length := by
    simpa using hi
  rw [List.getD_eq_getElem _ _ hlen]
  simp only [List.getElem_map, List.getElem_range]
  rw [List.getD_eq_getElem _ _ hs, List.getD_eq_getElem _ _ hs]

/-! ### Claim C2 -/

/-- **C2, counterexample.**  `SLTrainer::BehaviorCloningAgent::load` performs no
validation: presented with a file whose first length field declares 5 elements,
it silently resizes the first weight tensor to length 5 (≠ 130·256 = 33280) and
reports no failure — refuting the claim that *every* model loader validates
every length field and never silently resizes. -/
theorem slLoad_silent_resize_cex :
    ((slLoad ⟨List.replicate 6 [], List.replicate 6 []⟩
        [[1, 2, 3, 4, 5]]).network.getD 0 []).length = 5 ∧
      (5 : ℕ) ≠ 130 * 256 := by
  exact ⟨rfl, by decide⟩

/-- **C2, amended.**  The runtime loader `AIController::loadModel` does validate
every length field against the fixed layer sizes (weights 130·256, 256·128,
128·64, 64·32, 32·16, 16·2 and biases 256, 128, 64, 32, 16, 2) and fails fast
(`modelLoaded = false`) on any mismatch; but the trainer-side
`BehaviorCloningAgent::load` performs no validation and silently resizes each
tensor to whatever length the file declares. -/
theorem loadModel_validates_slLoad_does_not :
    (∀ (st : ControllerState) (file : Option (List (List ℚ))),
        (loadModel st file).modelLoaded = true ↔ loadSucceeds file = true) ∧
      (∀ (ag : AgentState) (stream : List (List ℚ)) (i : ℕ),
        i < ag.network.length → i < stream.length →
          (slLoad ag stream).network.getD i [] = stream.getD i []) :=
  ⟨loadModel_loaded_iff, slLoad_getD⟩

/-- Witness for the amended C2: an unopenable file never sets `modelLoaded`, and
`BehaviorCloningAgent::load` adopts a wrongly-sized first block verbatim. -/
theorem loadModel_validates_slLoad_does_not_witness :
    ((loadModel ⟨true, true, [], []⟩ none).modelLoaded = true ↔
        loadSucceeds none = true) ∧
      (slLoad ⟨[[0]], []⟩ [[1, 2]]).network.getD 0 [] = [1, 2] :=
  ⟨loadModel_validates_slLoad_does_not.1 ⟨true, true, [], []⟩ none,
    loadModel_validates_slLoad_does_not.2 ⟨[[0]], []⟩ [[1, 2]] 0 (by decide)
      (by decide)⟩

/-! ### Claim C7 -/

/-- **C7.**  Saving the trainer's parameters in the length-prefixed binary
format (6 weight blocks then 6 bias blocks) and loading the resulting stream
recovers parameters element-wise equal to the originals. -/
theorem slSave_slLoad_roundtrip (ag : AgentState) : slLoad ag (slSave ag) = ag := by
  obtain ⟨network, biases⟩ := ag
  rw [slLoad, slSave]
  simp only []
  congr 1
  · have hcongr : (List.range network.length).map
        (fun i => (network ++ biases).getD i (network.getD i []))
        = (List.range network.length).map (fun i => network.getD i []) := by
      apply List.map_congr_left
      intro i hi
      rw [List.mem_range] at hi
      rw [List.getD_append _ _ _ _ hi, List.getD_eq_getElem _ _ hi,
        List.getD_eq_getElem _ _ hi]
    rw [hcongr]
    exact map_getD_range network []
  · rw [List.drop_left]
    have hcongr : (List.range biases.length).map
        (fun i => biases.getD i (biases.getD i []))
        = (List.range biases.length).map (fun i => biases.getD i []) := by
      apply List.map_congr_left
      intro i hi
      rw [List.mem_range] at hi
      rw [List.getD_eq_getElem _ _ hi, List.getD_eq_getElem _ _ hi]
    rw [hcongr]
    exact map_getD_range biases []

/-! ### Claim C8 -/

/-- **C8.**  The inference-path discretization: `moveX = -1` iff `raw0 < -0.33`,
`moveX = 1` iff `raw0 > 0.33`, else `0` (the source tests `> 0.33` first, which
is equivalent since the regions are disjoint), and `useEnergy = 1` iff
`raw1 > 0.5`; in particular `raw0 = 0.33 ↦ moveX = 0` and
`raw0 = 0.34 ↦ moveX = 1`. -/
theorem discretizeAction_thresholds (raw0 raw1 : ℚ) :
    ((discretizeAction raw0 raw1).moveX
        = if raw0 < -0.33 then -1 else if raw0 > 0.33 then 1 else 0) ∧
      ((discretizeAction raw0 raw1).useEnergy = if raw1 > 0.5 then 1 else 0) ∧
      (discretizeAction 0.33 raw1).moveX = 0 ∧
      (discretizeAction 0.34 raw1).moveX = 1 := by
  refine ⟨?_, rfl, by norm_num [discretizeAction], by norm_num [discretizeAction]⟩
  simp only [discretizeAction]
  split_ifs <;> first | rfl | linarith

/-! ### Claim C9 -/

theorem getRandomAction_mem (s1 s2 : ℕ) :
    (getRandomAction s1 s2).moveX ∈ ({-1, 0, 1} : Set ℤ) ∧
      (getRandomAction s1 s2).useEnergy ∈ ({0, 1} : Set ℤ) := by
  constructor
  · simp only [getRandomAction, uniformIntDraw, Set.mem_insert_iff,
      Set.mem_singleton_iff]
    norm_num
    omega
  · simp only [getRandomAction, uniformIntDraw, Set.mem_insert_iff,
      Set.mem_singleton_iff]
    norm_num
    omega

theorem discretizeAction_mem (raw0 raw1 : ℚ) :
    (discretizeAction raw0 raw1).moveX ∈ ({-1, 0, 1} : Set ℤ) ∧
      (discretizeAction raw0 raw1).useEnergy ∈ ({0, 1} : Set ℤ) := by
  constructor
  · simp only [discretizeAction, Set.mem_insert_iff, Set.mem_singleton_iff]
    split_ifs <;> simp
  · simp only [discretizeAction, Set.mem_insert_iff, Set.mem_singleton_iff]
    split_ifs <;> simp

theorem predictActionWithDetails_mem (st : ControllerState) (features : List ℚ)
    (s1 s2 : ℕ) :
    (predictActionWithDetails st features s1 s2).1.moveX ∈ ({-1, 0, 1} : Set ℤ) ∧
      (predictActionWithDetails st features s1 s2).1.useEnergy ∈ ({0, 1} : Set ℤ) := by
  rw [predictActionWithDetails]
  split_ifs <;>
    first
      | exact getRandomAction_mem s1 s2
      | exact discretizeAction_mem _ _

theorem decideAction_mem (st : ControllerState) (features : List ℚ)
    (s1 s2 : ℕ) :
    (decideAction st features s1 s2).moveX ∈ ({-1, 0, 1} : Set ℤ) ∧
      (decideAction st features s1 s2).useEnergy ∈ ({0, 1} : Set ℤ) := by
  rw [decideAction]
  split_ifs
  · simp
  · rw [predictAction]
    split_ifs
    · exact getRandomAction_mem s1 s2
    · exact predictActionWithDetails_mem st features s1 s2
  · exact getRandomAction_mem s1 s2

/-- **C9.**  When AI control is disabled `decideAction` returns the null action
`{0, 0}`; when enabled with no model loaded it returns the random fallback
action; every returned action lies in `{-1,0,1} × {0,1}`; and the fallback is
uniform: every action of `{-1,0,1} × {0,1}` is produced by exactly one pair of
engine residues `(s1 mod 3, s2 mod 2)`. -/
theorem decideAction_claim (st : ControllerState) (features : List ℚ)
    (s1 s2 : ℕ) :
    (st.aiEnabled = false → decideAction st features s1 s2 = ⟨0, 0⟩) ∧
      (st.aiEnabled = true → st.modelLoaded = false →
        decideAction st features s1 s2 = getRandomAction s1 s2) ∧
      ((decideAction st features s1 s2).moveX ∈ ({-1, 0, 1} : Set ℤ) ∧
        (decideAction st features s1 s2).useEnergy ∈ ({0, 1} : Set ℤ)) ∧
      (∀ m e : ℤ, m ∈ ({-1, 0, 1} : Set ℤ) → e ∈ ({0, 1} : Set ℤ) →
        ((Finset.range 3 ×ˢ Finset.range 2).filter
          (fun p => getRandomAction p.1 p.2 = ⟨m, e⟩)).card = 1) := by
  refine ⟨?_, ?_, decideAction_mem st features s1 s2, ?_⟩
  · intro h; simp [decideAction, h]
  · intro h1 h2; simp [decideAction, h1, h2]
  · intro m e hm he
    simp only [Set.mem_insert_iff, Set.mem_singleton_iff] at hm he
    rcases hm with rfl | rfl | rfl <;> rcases he with rfl | rfl <;> decide

/-- Witness for C9: the disabled controller returns the null action, and an
enabled controller without a model returns the random fallback. -/
theorem decideAction_claim_witness :
    decideAction ⟨false, false, [], []⟩ [] 0 0 = ⟨0, 0⟩ ∧
      decideAction ⟨true, false, [], []⟩ [] 5 7 = getRandomAction 5 7 :=
  ⟨(decideAction_claim ⟨false, false, [], []⟩ [] 0 0).1 rfl,
    (decideAction_claim ⟨true, false, [], []⟩ [] 5 7).2.1 rfl rfl⟩

/-! ### Claim C10 -/

/-- **C10.**  Any failed `loadModel` call (unopenable file, or any of the 12
length fields mismatching the fixed sizes) leaves `modelLoaded = false` — even
if a valid model had been loaded before — and every subsequent `decideAction`
on the enabled controller returns the random fallback instead of running the
network. -/
theorem loadModel_failure_fallback (st : ControllerState)
    (file : Option (List (List ℚ))) (hfail : loadSucceeds file = false) :
    (loadModel st file).modelLoaded = false ∧
      ∀ (features : List ℚ) (s1 s2 : ℕ),
        (loadModel st file).aiEnabled = true →
          decideAction (loadModel st file) features s1 s2 =
            getRandomAction s1 s2 := by
  have h1 : (loadModel st file).modelLoaded = false := by
    rw [Bool.eq_false_iff]
    intro hT
    rw [loadModel_loaded_iff st file] at hT
    rw [hT] at hfail
    exact absurd hfail (by decide)
  refine ⟨h1, ?_⟩
  intro features s1 s2 hen
  simp [decideAction, hen, h1]

/-- Witness for C10: a controller holding a previously loaded valid model, hit
by an unopenable file, falls back to the random policy. -/
theorem loadModel_failure_fallback_witness :
    (loadModel ⟨true, true, [[2]], [[3]]⟩ none).modelLoaded = false ∧
      decideAction (loadModel ⟨true, true, [[2]], [[3]]⟩ none) [] 0 1 =
        getRandomAction 0 1 :=
  ⟨(loadModel_failure_fallback ⟨true, true, [[2]], [[3]]⟩ none rfl).1,
    (loadModel_failure_fallback ⟨true, true, [[2]], [[3]]⟩ none rfl).2 [] 0 1 rfl⟩

/-! ## TrainingEngine (SLTrainer::trainFromData, SLTrainer.cpp lines 26-118)

The epoch/batch control flow of `trainFromData` is embedded faithfully; the
agent's numeric training step and evaluation are abstracted behind `AgentOps`
(the loop is agnostic in them), and the `std::mt19937{std::random_device{}()}`
shuffles and the Gaussian data augmentation are modelled as explicit function
parameters. -/

/-- One training sample: `(state, action)` vectors
(`SimpleML::TrainingData`, SLTrainer.h lines 21-28). -/
abbrev Sample := List ℚ × List ℚ

/-- `SLTrainer::TrainingConfig` (SLTrainer.h lines 49-59); note
`earlyStoppingPatience` is a `float` in the source. -/
structure TrainingConfig where
  batchSize : ℕ
  epochs : ℕ
  learningRate : ℚ
  validationSplit : ℚ
  earlyStoppingPatience : ℚ

/-- The agent operations `trainFromData` invokes: `trainBatch a batch lr step`
models `agent->train(batchStates, batchActions, lr, step)` (returning the
updated parameters and the reported batch loss), and `evalLoss a v` models
`agent->evaluate(preprocessStates v, preprocessActions v)`. -/
structure AgentOps (σ : Type) where
  trainBatch : σ → List Sample → ℚ → ℕ → σ × ℚ
  evalLoss : σ → List Sample → ℚ

/-- The minibatch partition `for (size_t i = 0; i < indices.size();
i += config.batchSize)` (SLTrainer.cpp line 61).  A zero batch size would loop
forever in the source and is mapped to the empty partition; the list's length
serves as structural fuel (with `size ≥ 1` the remainder shrinks by at least
one element per step, so the fuel is never exhausted). -/
def chunkListAux {α : Type} (size : ℕ) : ℕ → List α → List (List α)
  | _, [] => []
  | 0, _ :: _ => []
  | fuel + 1, x :: xs =>
    (x :: xs).take size :: chunkListAux size fuel ((x :: xs).drop size)

def chunkList {α : Type} (size : ℕ) (l : List α) : List (List α) :=
  if size = 0 then [] else chunkListAux size l.length l

/-- One epoch of the batch loop of `trainFromData` (SLTrainer.cpp lines 56-79):
fold the minibatches through `agent->train`, with the quirky step argument
`epoch * batchCount` (`batchCount` counts the *completed* batches), summing the
batch losses.  Returns the updated agent, the summed epoch loss and the batch
count. -/
def runOneEpoch {σ : Type} (ops : AgentOps σ) (lr : ℚ) (batchSize : ℕ)
    (epochData : List Sample) (epoch : ℕ) (a : σ) : σ × ℚ × ℕ :=
  (chunkList batchSize epochData).foldl
    (fun st batch =>
      let r := ops.trainBatch st.1 batch lr (epoch * st.2.2)
      (r.1, st.2.1 + r.2, st.2.2 + 1))
    (a, 0, 0)

/-- Float division with the NaN case explicit: dividing by zero yields NaN,
modelled as `none`. -/
def fdiv (x y : ℚ) : Option ℚ := if y = 0 then none else some (x / y)

/-- The mutable state of the epoch loop of `trainFromData`: the agent plus the
`TrainingStats` fields and the early-stopping bookkeeping (SLTrainer.cpp lines
46-48 and 84-100, SLTrainer.h lines 159-172).  `trainingLoss` is the float
average `epochLoss / batchCount`, `none` standing for the NaN of a
division by zero; `validationLoss` stores the value reported by the abstract
`evalLoss` (the division inside the concrete `evaluate` is modelled at
`slEvaluate`). -/
structure TrainLoopState (σ : Type) where
  agent : σ
  bestEpoch : ℕ
  bestValLoss : ℚ
  patienceCounter : ℕ
  epochsCompleted : ℕ
  trainingLoss : Option ℚ
  validationLoss : ℚ

/-- `std::numeric_limits<float>::max()`, the initial best validation loss
(SLTrainer.cpp line 47): exactly `(2^24 - 1) * 2^104`. -/
def FLT_MAX : ℚ := 340282346638528859811704183484516925440

/-- The epoch loop of `trainFromData` (SLTrainer.cpp lines 50-114): run one
epoch, evaluate on the validation set, update the stats, track the best
validation loss, and stop early once the patience counter reaches
`earlyStoppingPatience`.  (The every-20-epochs intermediate model save is a
disk side effect with no bearing on the state and is omitted.) -/
def epochLoop {σ : Type} (ops : AgentOps σ)
    (epochOrder : ℕ → List Sample → List Sample) (trainData valSet : List Sample)
    (lr : ℚ) (batchSize : ℕ) (patienceLimit : ℚ) :
    ℕ → ℕ → TrainLoopState σ → TrainLoopState σ
  | 0, _, st => st
  | r + 1, epoch, st =>
    let run := runOneEpoch ops lr batchSize (epochOrder epoch trainData) epoch st.agent
    let valLoss := ops.evalLoss run.1 valSet
    let st1 : TrainLoopState σ :=
      { agent := run.1
        bestEpoch := st.bestEpoch
        bestValLoss := st.bestValLoss
        patienceCounter := st.patienceCounter
        epochsCompleted := epoch + 1
        trainingLoss := fdiv run.2.1 (run.2.2 : ℚ)
        validationLoss := valLoss }
    if valLoss < st.bestValLoss then
      epochLoop ops epochOrder trainData valSet lr batchSize patienceLimit r
        (epoch + 1)
        { st1 with bestValLoss := valLoss, bestEpoch := epoch, patienceCounter := 0 }
    else if ((st.patienceCounter + 1 : ℕ) : ℚ) ≥ patienceLimit then
      { st1 with patienceCounter := st.patienceCounter + 1 }
    else
      epochLoop ops epochOrder trainData valSet lr batchSize patienceLimit r
        (epoch + 1) { st1 with patienceCounter := st.patienceCounter + 1 }

/-- The result of `trainFromData`: whether the empty-training-set abort was
taken, the agent's parameters, and the `TrainingStats` fields. -/
structure TrainResult (σ : Type) where
  aborted : Bool
  agent : σ
  bestEpoch : ℕ
  bestValidationLoss : ℚ
  epochsCompleted : ℕ
  trainingLoss : Option ℚ
  validationLoss : ℚ

/-- `static_cast<size_t>(data.size() * (1.0f - config.validationSplit))`
(SLTrainer.cpp line 189). -/
def trainSizeOf (cfg : TrainingConfig) (n : ℕ) : ℕ :=
  (⌊(n : ℚ) * (1 - cfg.validationSplit)⌋).toNat

/-- The training part of `splitDatasetFromTrainingData` (SLTrainer.cpp
lines 183-193): the first `trainSizeOf` samples of the shuffled data. -/
def splitTrainSet (cfg : TrainingConfig) (shuffled : List Sample) : List Sample :=
  shuffled.take (trainSizeOf cfg shuffled.length)

/-- The validation part of `splitDatasetFromTrainingData`: the remaining
samples. -/
def splitValSet (cfg : TrainingConfig) (shuffled : List Sample) : List Sample :=
  shuffled.drop (trainSizeOf cfg shuffled.length)

/-- `SLTrainer::trainFromData` (SLTrainer.cpp lines 26-118): split the flattened
episodes, abort with an error message if the training set is empty, otherwise
augment the training data once and run the epoch loop; at the end only the
stats record the best epoch — the agent's parameters are whatever the last
executed epoch left. -/
def trainFromData {σ : Type} (ops : AgentOps σ)
    (splitShuffle : List Sample → List Sample)
    (augment : List Sample → List Sample)
    (epochOrder : ℕ → List Sample → List Sample)
    (cfg : TrainingConfig) (episodes : List (List Sample)) (a0 : σ) :
    TrainResult σ :=
  let shuffled := splitShuffle episodes.flatten
  let trainSet := splitTrainSet cfg shuffled
  let valSet := splitValSet cfg shuffled
  if trainSet = [] then
    { aborted := true, agent := a0, bestEpoch := 0,
      bestValidationLoss := FLT_MAX, epochsCompleted := 0,
      trainingLoss := some 0, validationLoss := 0 }
  else
    let augmentedTrain := augment trainSet
    let final := epochLoop ops epochOrder augmentedTrain valSet cfg.learningRate
      cfg.batchSize cfg.earlyStoppingPatience cfg.epochs 0
      { agent := a0, bestEpoch := 0, bestValLoss := FLT_MAX,
        patienceCounter := 0, epochsCompleted := 0, trainingLoss := some 0,
        validationLoss := 0 }
    { aborted := false, agent := final.agent, bestEpoch := final.bestEpoch,
      bestValidationLoss := final.bestValLoss,
      epochsCompleted := final.epochsCompleted,
      trainingLoss := final.trainingLoss,
      validationLoss := final.validationLoss }

/-- Pure re-run of the first `k` epochs' parameter updates (no early-stopping
bookkeeping): the "last-seen" parameter trajectory. -/
def runEpochs {σ : Type} (ops : AgentOps σ)
    (epochOrder : ℕ → List Sample → List Sample) (trainData : List Sample)
    (lr : ℚ) (batchSize : ℕ) : ℕ → ℕ → σ → σ
  | 0, _, a => a
  | k + 1, e, a =>
    runEpochs ops epochOrder trainData lr batchSize k (e + 1)
      (runOneEpoch ops lr batchSize (epochOrder e trainData) e a).1

/-- `BehaviorCloningAgent::computeLoss` (SLTrainer.cpp lines 606-614):
mean-squared error over the output dimensions (always 2 on the training path,
since predictions come from the forward pass). -/
def computeLoss (predicted targetVec : List ℚ) : ℚ :=
  ((List.range predicted.length).foldl
    (fun acc i =>
      acc + (predicted.getD i 0 - targetVec.getD i 0)
        * (predicted.getD i 0 - targetVec.getD i 0)) 0) / (predicted.length : ℚ)

/-- `BehaviorCloningAgent::evaluate` (SLTrainer.cpp lines 550-558): sum
`computeLoss` of the forward pass over all states, then divide by
`states.size()` — unconditionally, so an empty state list divides zero by zero
(NaN, modelled as `none`). -/
def slEvaluate (ag : AgentState) (states actions : List (List ℚ)) : Option ℚ :=
  fdiv
    ((List.range states.length).foldl
      (fun acc i =>
        acc + computeLoss (forward6 ag.network ag.biases (states.getD i []))
          (actions.getD i [])) 0)
    (states.length : ℚ)

/-! ### Trainer lemmas -/

theorem runEpochs_succ {σ : Type} (ops : AgentOps σ)
    (epochOrder : ℕ → List Sample → List Sample) (trainData : List Sample)
    (lr : ℚ) (batchSize : ℕ) :
    ∀ (k e : ℕ) (a : σ),
      runEpochs ops epochOrder trainData lr batchSize (k + 1) e a
        = (runOneEpoch ops lr batchSize (epochOrder (e + k) trainData) (e + k)
            (runEpochs ops epochOrder trainData lr batchSize k e a)).1 := by
  intro k
  induction k with
  | zero => intro e a; simp [runEpochs]
  | succ k ih =>
    intro e a
    have h1 : runEpochs ops epochOrder trainData lr batchSize (k + 1 + 1) e a
        = runEpochs ops epochOrder trainData lr batchSize (k + 1) (e + 1)
          (runOneEpoch ops lr batchSize (epochOrder e trainData) e a).1 := rfl
    have h2 : runEpochs ops epochOrder trainData lr batchSize (k + 1) e a
        = runEpochs ops epochOrder trainData lr batchSize k (e + 1)
          (runOneEpoch ops lr batchSize (epochOrder e trainData) e a).1 := rfl
    have h3 : e + 1 + k = e + (k + 1) := by omega
    rw [h1, ih (e + 1), h2, h3]

theorem epochLoop_agent_spec {σ : Type} (ops : AgentOps σ)
    (epochOrder : ℕ → List Sample → List Sample) (trainData valSet : List Sample)
    (lr : ℚ) (batchSize : ℕ) (patienceLimit : ℚ) (a0 : σ) :
    ∀ (r epoch : ℕ) (st : TrainLoopState σ),
      st.agent = runEpochs ops epochOrder trainData lr batchSize epoch 0 a0 →
      st.epochsCompleted = epoch →
      ((epochLoop ops epochOrder trainData valSet lr batchSize patienceLimit
          r epoch st).agent
        = runEpochs ops epochOrder trainData lr batchSize
            (epochLoop ops epochOrder trainData valSet lr batchSize
              patienceLimit r epoch st).epochsCompleted 0 a0) := by
  intro r
  induction r with
  | zero =>
    intro epoch st ha he
    rw [epochLoop, he, ha]
  | succ r ih =>
    intro epoch st ha he
    rw [epochLoop]
    have hrun : (runOneEpoch ops lr batchSize (epochOrder epoch trainData)
        epoch st.agent).1
        = runEpochs ops epochOrder trainData lr batchSize (epoch + 1) 0 a0 := by
      rw [runEpochs_succ ops epochOrder trainData lr batchSize epoch 0 a0, ha]
      simp
    split_ifs
    · exact ih (epoch + 1) _ hrun rfl
    · simpa using hrun
    · exact ih (epoch + 1) _ hrun rfl

theorem chunkList_ne_nil {α : Type} (size : ℕ) (l : List α)
    (hsz : size ≠ 0) (hl : l ≠ []) : chunkList size l ≠ [] := by
  cases l with
  | nil => exact absurd rfl hl
  | cons x xs =>
    rw [chunkList, if_neg hsz]
    simp [chunkListAux]

theorem runOneEpoch_batchCount_aux {σ : Type} (ops : AgentOps σ) (lr : ℚ)
    (epoch : ℕ) :
    ∀ (l : List (List Sample)) (st : σ × ℚ × ℕ),
      (l.foldl
        (fun st batch =>
          let r := ops.trainBatch st.1 batch lr (epoch * st.2.2)
          (r.1, st.2.1 + r.2, st.2.2 + 1)) st).2.2 = st.2.2 + l.length := by
  intro l
  induction l with
  | nil => intro st; simp
  | cons b bs ih =>
    intro st
    rw [List.foldl_cons, ih]
    simp only [List.length_cons]
    omega

theorem runOneEpoch_batchCount {σ : Type} (ops : AgentOps σ) (lr : ℚ)
    (batchSize : ℕ) (epochData : List Sample) (epoch : ℕ) (a : σ) :
    (runOneEpoch ops lr batchSize epochData epoch a).2.2
      = (chunkList batchSize epochData).length := by
  rw [runOneEpoch, runOneEpoch_batchCount_aux]
  simp

theorem trainingLoss_fdiv_some {σ : Type} (ops : AgentOps σ) (lr : ℚ)
    (batchSize : ℕ) (epochData : List Sample) (epoch : ℕ) (a : σ)
    (hsz : batchSize ≠ 0) (hne : epochData ≠ []) :
    ∃ q, fdiv (runOneEpoch ops lr batchSize epochData epoch a).2.1
      ((runOneEpoch ops lr batchSize epochData epoch a).2.2 : ℚ) = some q := by
  have h2 : (chunkList batchSize epochData).length ≠ 0 := fun h0 =>
    chunkList_ne_nil batchSize epochData hsz hne (List.length_eq_zero.mp h0)
  have hden : ((runOneEpoch ops lr batchSize epochData epoch a).2.2 : ℚ) ≠ 0 := by
    rw [runOneEpoch_batchCount, Nat.cast_ne_zero]
    exact h2
  exact ⟨_, by rw [fdiv, if_neg hden]⟩

theorem epochLoop_trainingLoss_ne_none {σ : Type} (ops : AgentOps σ)
    (epochOrder : ℕ → List Sample → List Sample) (trainData valSet : List Sample)
    (lr : ℚ) (batchSize : ℕ) (patienceLimit : ℚ)
    (hsz : batchSize ≠ 0) (hord : ∀ e, epochOrder e trainData ≠ []) :
    ∀ (r epoch : ℕ) (st : TrainLoopState σ), st.trainingLoss ≠ none →
      (epochLoop ops epochOrder trainData valSet lr batchSize patienceLimit
        r epoch st).trainingLoss ≠ none := by
  intro r
  induction r with
  | zero =>
    intro epoch st h
    rw [epochLoop]
    exact h
  | succ r ih =>
    intro epoch st h
    rw [epochLoop]
    obtain ⟨q, hq⟩ := trainingLoss_fdiv_some ops lr batchSize
      (epochOrder epoch trainData) epoch st.agent hsz (hord epoch)
    split_ifs
    · apply ih
      simp [hq]
    · simp [hq]
    · apply ih
      simp [hq]

/-! ### Claim C3 -/

/-- Toy agent instance: the parameter state is an update counter, the validation
loss grows with it (so the first epoch is the best). -/
def toyOps : AgentOps ℕ :=
  { trainBatch := fun a _ _ _ => (a + 1, 0)
    evalLoss := fun a _ => (a : ℚ) }

/-- Concrete configuration: 5 epochs, patience 2, no validation split. -/
def cfg3 : TrainingConfig :=
  { batchSize := 1, epochs := 5, learningRate := 1, validationSplit := 0,
    earlyStoppingPatience := 2 }

/-- One single-sample episode. -/
def episodes3 : List (List Sample) := [[(([] : List ℚ), ([] : List ℚ))]]

attribute [local semireducible] Rat.mul Rat.sub Rat.add in
/-- **C3, counterexample.**  A concrete run in which the best validation loss is
seen at epoch 0 but training continues to epoch 2 before early stopping: the
trainer ends holding the parameters after epoch 2's updates (`3` updates of the
toy counter), not the best-validation-epoch parameters (`1` update) — no
checkpoint is reloaded.  (`Rat.mul`/`Rat.sub`/`Rat.add` are `@[irreducible]`
in Batteries, which only hides them from the elaborator's evaluator; they are
made semireducible locally so `decide` can run the training loop.) -/
theorem trainFromData_not_best_seen_cex :
    (trainFromData toyOps id id (fun _ l => l) cfg3 episodes3 0).agent = 3 ∧
      (trainFromData toyOps id id (fun _ l => l) cfg3 episodes3 0).bestEpoch = 0 ∧
      runEpochs toyOps (fun _ l => l)
          (splitTrainSet cfg3 episodes3.flatten) 1 1
          ((trainFromData toyOps id id (fun _ l => l) cfg3 episodes3 0).bestEpoch
            + 1) 0 0 = 1 ∧
      (3 : ℕ) ≠ 1 := by
  decide

/-- **C3, amended.**  When `trainFromData` finishes (by early stopping or by
reaching `config.epochs`), the parameters held by the trainer are those left by
the final executed epoch's updates (the last-seen parameters); the
best-validation-loss epoch is only recorded in the returned stats — no
checkpoint of it is persisted and reloaded. -/
theorem trainFromData_last_seen {σ : Type} (ops : AgentOps σ)
    (splitShuffle : List Sample → List Sample)
    (augment : List Sample → List Sample)
    (epochOrder : ℕ → List Sample → List Sample)
    (cfg : TrainingConfig) (episodes : List (List Sample)) (a0 : σ) :
    (trainFromData ops splitShuffle augment epochOrder cfg episodes a0).agent
      = runEpochs ops epochOrder
          (augment (splitTrainSet cfg (splitShuffle episodes.flatten)))
          cfg.learningRate cfg.batchSize
          (trainFromData ops splitShuffle augment epochOrder cfg episodes
            a0).epochsCompleted 0 a0 := by
  rw [trainFromData]
  by_cases h : splitTrainSet cfg (splitShuffle episodes.flatten) = []
  · simp only [h, if_pos rfl]
    rfl
  · simp only [if_neg h]
    exact epochLoop_agent_spec ops epochOrder _ _ cfg.learningRate cfg.batchSize
      cfg.earlyStoppingPatience a0 cfg.epochs 0 _ rfl rfl

/-! ### Claim C6 -/

attribute [local semireducible] Rat.mul Rat.sub Rat.add in
/-- **C6, counterexample.**  With `validationSplit = 0` and a non-empty dataset
the split yields an empty validation set while training proceeds (at least one
epoch executes), and the validation-loss average — `evaluate` on an empty state
list — divides zero by zero (NaN): an averaging computation on the training
path *does* divide by zero. -/
theorem validation_average_divides_by_zero_cex :
    splitValSet cfg3 episodes3.flatten = [] ∧
      splitTrainSet cfg3 episodes3.flatten ≠ [] ∧
      1 ≤ (trainFromData toyOps id id (fun _ l => l) cfg3 episodes3
        0).epochsCompleted ∧
      slEvaluate ⟨[], []⟩ [] [] = none := by
  decide

/-- **C6, amended.**  If the dataset yields zero training samples,
`trainFromData` aborts with the explicit no-data error before any parameter
update (the agent is returned untouched and no epoch runs); the training-loss
average `epochLoss / batchCount` never divides by zero (for a terminating
configuration, i.e. a non-zero batch size, and non-emptiness-preserving
shuffle/augmentation as in the source, every executed epoch has at least one
batch, so the average is never NaN); and `evaluate`'s loss average is well
defined whenever its state list is non-empty — but (per the counterexample)
the validation-loss average does divide by zero when the split produces an
empty validation set. -/
theorem trainFromData_empty_abort_eval_division :
    (∀ {σ : Type} (ops : AgentOps σ)
      (splitShuffle augment : List Sample → List Sample)
      (epochOrder : ℕ → List Sample → List Sample)
      (cfg : TrainingConfig) (episodes : List (List Sample)) (a0 : σ),
      splitTrainSet cfg (splitShuffle episodes.flatten) = [] →
        (trainFromData ops splitShuffle augment epochOrder cfg episodes
            a0).aborted = true ∧
          (trainFromData ops splitShuffle augment epochOrder cfg episodes
            a0).agent = a0 ∧
          (trainFromData ops splitShuffle augment epochOrder cfg episodes
            a0).epochsCompleted = 0) ∧
      (∀ {σ : Type} (ops : AgentOps σ)
        (splitShuffle augment : List Sample → List Sample)
        (epochOrder : ℕ → List Sample → List Sample)
        (cfg : TrainingConfig) (episodes : List (List Sample)) (a0 : σ),
        cfg.batchSize ≠ 0 →
        (∀ e (l : List Sample), l ≠ [] → epochOrder e l ≠ []) →
        (∀ l : List Sample, l ≠ [] → augment l ≠ []) →
          (trainFromData ops splitShuffle augment epochOrder cfg episodes
            a0).trainingLoss ≠ none) ∧
      (∀ (ag : AgentState) (states actions : List (List ℚ)), states ≠ [] →
        ∃ q, slEvaluate ag states actions = some q) := by
  refine ⟨?_, ?_, ?_⟩
  · intro σ ops splitShuffle augment epochOrder cfg episodes a0 h
    rw [trainFromData]
    simp only [h, if_pos rfl]
    exact ⟨rfl, rfl, rfl⟩
  · intro σ ops splitShuffle augment epochOrder cfg episodes a0 hsz hord haug
    rw [trainFromData]
    by_cases h : splitTrainSet cfg (splitShuffle episodes.flatten) = []
    · simp only [h, if_pos rfl]
      exact Option.some_ne_none 0
    · simp only [if_neg h]
      exact epochLoop_trainingLoss_ne_none ops epochOrder
        (augment (splitTrainSet cfg (splitShuffle episodes.flatten)))
        (splitValSet cfg (splitShuffle episodes.flatten))
        cfg.learningRate cfg.batchSize cfg.earlyStoppingPatience hsz
        (fun e => hord e _ (haug _ h)) cfg.epochs 0 _
        (Option.some_ne_none 0)
  · intro ag states actions h
    have hz : (states.length : ℚ) ≠ 0 := by
      rw [Nat.cast_ne_zero]
      exact fun h0 => h (List.length_eq_zero.mp h0)
    exact ⟨_, by rw [slEvaluate, fdiv, if_neg hz]⟩

/-- Witness for the amended C6: an empty dataset aborts with the agent
untouched, a concrete run's training-loss average is not NaN, and `evaluate`
on a one-sample list is well defined. -/
theorem trainFromData_empty_abort_eval_division_witness :
    ((trainFromData toyOps id id (fun _ l => l) cfg3 [] 0).aborted = true ∧
        (trainFromData toyOps id id (fun _ l => l) cfg3 [] 0).agent = 0 ∧
        (trainFromData toyOps id id (fun _ l => l) cfg3 [] 0).epochsCompleted
          = 0) ∧
      (trainFromData toyOps id id (fun _ l => l) cfg3 episodes3
        0).trainingLoss ≠ none ∧
      ∃ q, slEvaluate ⟨[], []⟩ [[0]] [[0]] = some q :=
  ⟨trainFromData_empty_abort_eval_division.1 toyOps id id (fun _ l => l) cfg3 []
      0 (by simp [splitTrainSet]),
    trainFromData_empty_abort_eval_division.2.1 toyOps id id (fun _ l => l)
      cfg3 episodes3 0 (by decide) (fun _ _ h => h) (fun _ h => h),
    trainFromData_empty_abort_eval_division.2.2 ⟨[], []⟩ [[0]] [[0]]
      (by decide)⟩

end NoitaAI
